import Mathlib

/-!
Shallow embedding of the Salto NetSuite analytics filters
(workbook change validator, dataset/workbook analytics parse filter,
workbook parse filter) together with the parsed-dataset schema
vocabulary, and proofs about the claims of the specification.

JavaScript values are modelled by `JsValue`: plain objects are ordered
association lists (insertion order preserved, keys unique in practice),
arrays are Lean lists, and `ReferenceExpression` values carry their
`ElemID` as a list of name segments (full name is the dot-joined list).
`undefined` stands for JavaScript `undefined` (the result of reading an
absent key).
-/

inductive JsValue where
  | str : String → JsValue
  | num : Int → JsValue
  | bool : Bool → JsValue
  | arr : List JsValue → JsValue
  | obj : List (String × JsValue) → JsValue
  | ref : List String → JsValue
  | undefined : JsValue
deriving Repr

namespace JsValue

mutual

/-- Structural equality of JavaScript values. It models lodash
`_.isEqual` at the places the source uses it; the source only compares
against single-entry sentinel objects there, where `_.isEqual`'s
key-order insensitivity cannot be observed. -/
def beq : JsValue → JsValue → Bool
  | .str a, .str b => a == b
  | .num a, .num b => a == b
  | .bool a, .bool b => a == b
  | .arr a, .arr b => beqList a b
  | .obj a, .obj b => beqEntries a b
  | .ref a, .ref b => a == b
  | .undefined, .undefined => true
  | _, _ => false

def beqList : List JsValue → List JsValue → Bool
  | [], [] => true
  | a :: as, b :: bs => beq a b && beqList as bs
  | _, _ => false

def beqEntries : List (String × JsValue) → List (String × JsValue) → Bool
  | [], [] => true
  | a :: as, b :: bs => a.1 == b.1 && beq a.2 b.2 && beqEntries as bs
  | _, _ => false

end

/-- Key presence test, the JavaScript `key in value` on a plain object. -/
def hasKeyE (entries : List (String × JsValue)) (k : String) : Bool :=
  entries.any (fun e => e.1 == k)

/-- Property read on a plain object's entries: absent keys read as `undefined`. -/
def getE (entries : List (String × JsValue)) (k : String) : JsValue :=
  match entries.find? (fun e => e.1 == k) with
  | some e => e.2
  | none => .undefined

/-- JavaScript assignment `value[k] = v` on an object's entries: an existing
key keeps its position and gets the new value, a new key is appended. -/
def setE : List (String × JsValue) → String → JsValue → List (String × JsValue)
  | [], k, v => [(k, v)]
  | e :: rest, k, v => if e.1 == k then (k, v) :: rest else e :: setE rest k v

/-- Lodash `_.omit(value, k)` / JavaScript `delete value[k]` on entries. -/
def omitE (entries : List (String × JsValue)) (k : String) :
    List (String × JsValue) :=
  entries.filter (fun e => e.1 != k)

/-- Key presence on a `JsValue` (false on non-objects). -/
def hasKey : JsValue → String → Bool
  | .obj entries, k => hasKeyE entries k
  | _, _ => false

/-- Property read on a `JsValue`; reads on non-objects yield `undefined`
(this models the optional-chaining reads the source performs). -/
def get : JsValue → String → JsValue
  | .obj entries, k => getE entries k
  | _, _ => .undefined

/-- JavaScript `String(v)` coercion for the values the filters manipulate. -/
def jsString : JsValue → String
  | .str s => s
  | .bool true => "true"
  | .bool false => "false"
  | .num n => toString n
  | .undefined => "undefined"
  | .arr l => String.intercalate "," (l.map fun v =>
      match v with
      | .undefined => ""
      | .str s => s
      | .bool true => "true"
      | .bool false => "false"
      | .num n => toString n
      | _ => "")
  | .obj _ => "[object Object]"
  | .ref _ => "[object Object]"

/-- The entries contributed by spreading a value into an object literal
(`{...v}`): objects contribute their entries, other values the filters
spread are plain objects, so the remaining cases contribute nothing. -/
def spreadEntriesOf : JsValue → List (String × JsValue)
  | .obj entries => entries
  | _ => []

/-- Object-literal spread `{...base, ...v}` where later assignments
override earlier ones but keep the first insertion position. -/
def jsSpreadInto (base : List (String × JsValue)) (v : JsValue) :
    List (String × JsValue) :=
  (spreadEntriesOf v).foldl (fun acc e => setE acc e.1 e.2) base

end JsValue

/-- `pre` is a prefix of `s` (JavaScript `s.startsWith(pre)`). -/
def jsStartsWith (s pre : String) : Bool :=
  pre.data.isPrefixOf s.data

/-- Split a character list on `'.'` (helper for `jsSplitDot`). -/
def splitCharsOnDot : List Char → List (List Char)
  | [] => [[]]
  | c :: rest =>
    match splitCharsOnDot rest with
    | cur :: others =>
      if c = '.' then [] :: cur :: others else (c :: cur) :: others
    | [] => [[]]

/-- JavaScript `s.split('.')`. -/
def jsSplitDot (s : String) : List String :=
  (splitCharsOnDot s.data).map String.mk

/-- Join character lists with `'.'` between them (helper for
`elemFullName`). -/
def joinDotChars : List (List Char) → List Char
  | [] => []
  | [x] => x
  | x :: rest => x ++ '.' :: joinDotChars rest

/-- Full name of an `ElemID` given as its name segments (the segments
joined with dots). -/
def elemFullName (segs : List String) : String :=
  String.mk (joinDotChars (segs.map String.data))

/-- An instance element as the filters see it: its `ElemID` segments and
its value. -/
structure InstanceElem where
  elemID : List String
  value : JsValue
deriving Repr

/-- `elemID.typeName`: the second segment of a Salto `ElemID`
(`adapter.typeName.idType...`). -/
def elemTypeName (segs : List String) : String :=
  segs.getD 1 ""

/-! ## JavaScript `Number(str)` NaN test

The source defines `isNumberStr = (str) => !Number.isNaN(Number(str))`.
`Number` on a string trims whitespace, maps the empty remainder to `0`,
and otherwise accepts a `StrNumericLiteral`: an optionally signed
decimal literal (`Infinity`, `digits[.digits][exp]`, `.digits[exp]`) or
an unsigned `0x`/`0o`/`0b` integer literal. -/

def isJsSpace (c : Char) : Bool :=
  c = ' ' || c = '\t' || c = '\n' || c = '\r' ||
  c.val = 11 || c.val = 12 || c.val = 0xA0 || c.val = 0xFEFF ||
  c.val = 0x2028 || c.val = 0x2029

def jsTrimChars (cs : List Char) : List Char :=
  ((cs.dropWhile isJsSpace).reverse.dropWhile isJsSpace).reverse

def isHexDigitChar (c : Char) : Bool :=
  c.isDigit || ('a' ≤ c && c ≤ 'f') || ('A' ≤ c && c ≤ 'F')

def isOctDigitChar (c : Char) : Bool := '0' ≤ c && c ≤ '7'

def isBinDigitChar (c : Char) : Bool := c = '0' || c = '1'

/-- Optional exponent part: empty, or `(e|E)[+|-]digits`. -/
def isOptExponent : List Char → Bool
  | [] => true
  | c :: rest =>
    (c = 'e' || c = 'E') &&
    (let rest2 := match rest with
      | '+' :: r => r
      | '-' :: r => r
      | r => r
     rest2 ≠ [] && rest2.all Char.isDigit)

/-- `StrUnsignedDecimalLiteral`. -/
def isUnsignedDecimal (cs : List Char) : Bool :=
  if cs = "Infinity".data then true
  else
    let intPart := cs.takeWhile Char.isDigit
    let rest := cs.dropWhile Char.isDigit
    match rest with
    | '.' :: rest2 =>
      let frac := rest2.takeWhile Char.isDigit
      let rest3 := rest2.dropWhile Char.isDigit
      (intPart ≠ [] || frac ≠ []) && isOptExponent rest3
    | _ => intPart ≠ [] && isOptExponent rest

/-- `StrNumericLiteral` (after trimming, nonempty). -/
def isNumericLiteral (cs : List Char) : Bool :=
  match cs with
  | '0' :: x :: rest =>
    if x = 'x' || x = 'X' then rest ≠ [] && rest.all isHexDigitChar
    else if x = 'o' || x = 'O' then rest ≠ [] && rest.all isOctDigitChar
    else if x = 'b' || x = 'B' then rest ≠ [] && rest.all isBinDigitChar
    else isUnsignedDecimal ('0' :: x :: rest)
  | '+' :: rest => isUnsignedDecimal rest
  | '-' :: rest => isUnsignedDecimal rest
  | _ => isUnsignedDecimal cs

/-- `isNumberStr` from the source: `!Number.isNaN(Number(str))`. -/
def isNumberStr (s : String) : Bool :=
  let t := jsTrimChars s.data
  t = [] || isNumericLiteral t

/-! ## The translation-reference regular expression

`checkReferenceToTranslation` tests a name against
`^netsuite.translationcollection.instance.\w+.strings.string.\w+.scriptid$`.
We embed this exact pattern as a sequence of atoms (`lit` for literal
runs, `anyc` for the single-character wildcard `.`, `wplus` for `\w+`)
and run a backtracking matcher over it. -/

inductive RegexAtom where
  | lit : String → RegexAtom
  | anyc : RegexAtom
  | wplus : RegexAtom

def isWordChar (c : Char) : Bool :=
  c.isAlpha || c.isDigit || c = '_'

/-- Backtracking matcher for a full (anchored) match of a sequence of
atoms against a character list, written with explicit fuel (every
recursive call shrinks the combined pattern-plus-input size by at least
one, so `ps.length + cs.length + 1` fuel always suffices). `\w+`
consumes one word character and then either lets the rest of the
pattern match or consumes further word characters. -/
def matchAtomsFuel : Nat → List RegexAtom → List Char → Bool
  | 0, _, _ => false
  | _ + 1, [], [] => true
  | _ + 1, [], _ :: _ => false
  | f + 1, .lit s :: ps, cs =>
    if s.data.isPrefixOf cs then matchAtomsFuel f ps (cs.drop s.data.length)
    else false
  | f + 1, .anyc :: ps, _ :: cs => matchAtomsFuel f ps cs
  | _ + 1, .anyc :: _, [] => false
  | f + 1, .wplus :: ps, c :: cs =>
    isWordChar c && (matchAtomsFuel f ps cs || matchAtomsFuel f (.wplus :: ps) cs)
  | _ + 1, .wplus :: _, [] => false

def matchAtoms (ps : List RegexAtom) (cs : List Char) : Bool :=
  matchAtomsFuel (ps.length + cs.length + 1) ps cs

/-! ## Schema model

The parsed analytic schemas are trees of Salto type elements: primitive
types, list (container) types, and object types with annotations and
named fields, where fields carry their own annotations
(`DEFAULT_VALUE`, `DO_NOT_ADD`) and object types carry `XML_TYPE` /
`IGNORE_T_VALUE`. Annotation values are `JsValue`s. -/

abbrev Annots := List (String × JsValue)

inductive SchemaType where
  | prim : String → SchemaType
  | list : SchemaType → SchemaType
  | obj : Annots → List (String × Annots × SchemaType) → SchemaType

/-! Constants from `parsed_dataset.ts` and the filter files. -/

def DEFAULT_VALUE : String := "DEFAULT_VALUE"
def XML_TYPE : String := "XML_TYPE"
def DO_NOT_ADD : String := "DO_NOT_ADD"
def IGNORE_T_VALUE : String := "IGNORE_T_VALUE"
def T : String := "_T_"
def TYPE : String := "@_type"
def ITEM : String := "_ITEM_"
def TEXT : String := "#text"

/-- Modelled from the spec: the adapter id constant `NETSUITE` lives in
`../constants`, which is not part of the given sources; the reference
regular expression in the filter hardcodes the segment `netsuite`, so
the constant is `"netsuite"`. -/
def NETSUITE : String := "netsuite"

/-- Modelled from the spec: the type-name constant `WORKBOOK` lives in
`../constants`, which is not part of the given sources; the spec's
document kind is `workbook`. -/
def WORKBOOK : String := "workbook"

/-- `annotations[k] !== true` is the negation of this. -/
def annotIsTrue (a : Annots) (k : String) : Bool :=
  match JsValue.getE a k with
  | .bool true => true
  | _ => false

/-- `isObjectType(fieldType) && XML_TYPE in fieldType.annotations`. -/
def isTaggedUnionObj : Option SchemaType → Bool
  | some (.obj annots _) => JsValue.hasKeyE annots XML_TYPE
  | _ => false

/-- `fieldType?.elemID.isEqual(BuiltinTypes.STRING.elemID)`. -/
def isStringPrimType : Option SchemaType → Bool
  | some (.prim n) => n == "string"
  | _ => false

def fieldsOf : SchemaType → List (String × Annots × SchemaType)
  | .obj _ fs => fs
  | _ => []

/-- `checkReferenceToTranslation` (defined identically in both filter
files): test against
`^netsuite.translationcollection.instance.\w+.strings.string.\w+.scriptid$`. -/
def translationRefAtoms : List RegexAtom :=
  [.lit "netsuite", .anyc, .lit "translationcollection", .anyc,
   .lit "instance", .anyc, .wplus, .anyc, .lit "strings", .anyc,
   .lit "string", .anyc, .wplus, .anyc, .lit "scriptid"]

def checkReferenceToTranslation (name : String) : Bool :=
  matchAtoms translationRefAtoms name.data

/-- `{ '@_type': 'array' }` (the `arrayObject` of both filter files). -/
def arrayObject : JsValue := .obj [(TYPE, .str "array")]

/-- `{ '@_type': 'null' }` (the `nullObject` of both filter files). -/
def nullObject : JsValue := .obj [(TYPE, .str "null")]

/-- Keys used on objects (strings) and arrays (indices) by the deploy
walk functions. -/
inductive JsKey where
  | s : String → JsKey
  | i : Nat → JsKey

/-- `value[key]` for a string-or-index key. -/
def idxK : JsValue → JsKey → JsValue
  | .obj entries, .s k => JsValue.getE entries k
  | .obj entries, .i n => JsValue.getE entries (toString n)
  | .arr l, .i n => l.getD n .undefined
  | _, _ => .undefined

/-- `value[key] = v` for a string-or-index key. -/
def setK : JsValue → JsKey → JsValue → JsValue
  | .obj entries, .s k, v => .obj (JsValue.setE entries k v)
  | .arr l, .i n, v => .arr (l.set n v)
  | v, _, _ => v

/-! ## The analytics (dataset/workbook) filter -/

namespace Analytics

def TValuesToIgnore : List String := ["workbook", "dataSet", "formula"]

def keysToAddT : List String := ["formula"]

def originalFields : List String := ["scriptid", "name", "definition", "dependencies"]

/-- `TValuesToIgnore.has(value[T])`: only string members can be in the set. -/
def tvalIgnored : JsValue → Bool
  | .str t => t ∈ TValuesToIgnore
  | _ => false

/-- The `_T_` branch of `fetchTransformFunc` together with the final
`return value` for plain objects without `_T_`. -/
def fetchTBranch (fieldType : Option SchemaType)
    (entries : List (String × JsValue)) : JsValue :=
  if JsValue.hasKeyE entries T then
    let tval := JsValue.getE entries T
    if !isTaggedUnionObj fieldType then
      .obj (JsValue.jsSpreadInto [("xmlType", tval)] (.obj (JsValue.omitE entries T)))
    else if tvalIgnored tval then
      .obj (JsValue.omitE entries T)
    else
      .obj [(JsValue.jsString tval, .obj (JsValue.omitE entries T))]
  else
    .obj entries

/-- The last two steps of `fetchTransformFunc`: coerce to string when the
resolved field type is the string primitive, otherwise pass through. -/
def fetchTail (fieldType : Option SchemaType) (value : JsValue) : JsValue :=
  if isStringPrimType fieldType then .str (JsValue.jsString value) else value

/-- The `instance` lookup of the analytics fetch transform:
`await elementsSource.get(instanceElemId) ?? elements.find(...)` — the
elements source is consulted first, then the in-flight element list by
full name. -/
def instLookup (es elements : List InstanceElem)
    (instanceElemId : List String) : Option InstanceElem :=
  match es.find? (fun e => e.elemID == instanceElemId) with
  | some i => some i
  | none => elements.find? (fun e =>
      elemFullName e.elemID == elemFullName instanceElemId)

/-- `instance.value?.strings?.string?.[stringId]?.scriptid`. -/
def scriptidOf (v : JsValue) (stringId : String) : JsValue :=
  (((v.get "strings").get "string").get stringId).get "scriptid"

/-- `fetchTransformFunc` of the analytics filter. `es` is the read-only
elements source and `elements` the in-flight element list; `fieldType`
is the resolved field type (the source resolves it from `path`/`field`
before the branches modelled here). -/
def fetchTransformFunc (es : List InstanceElem) (elements : List InstanceElem)
    (fieldType : Option SchemaType) (value : JsValue) : JsValue :=
  match value with
  | .obj entries =>
    if JsValue.hasKeyE entries TYPE then
      match JsValue.getE entries TYPE with
      | .str "null" => .obj []
      | .str "array" =>
        (match JsValue.getE entries ITEM with
         | .undefined => .arr []
         | .arr l => .arr l
         | v => .arr [v])
      | .str "boolean" => JsValue.getE entries TEXT
      | .str "string" => .str (JsValue.jsString (JsValue.getE entries TEXT))
      | _ => fetchTBranch fieldType entries
    else fetchTBranch fieldType entries
  | .str s =>
    if jsStartsWith s "custcollectiontranslations" then
      match jsSplitDot s with
      | [p0, p1] =>
        let instanceElemId : List String :=
          [NETSUITE, "translationcollection", "instance", p0]
        (match instLookup es elements instanceElemId with
         | some i =>
           (match scriptidOf i.value p1 with
            | .undefined => fetchTail fieldType (.str s)
            | _ => .ref (instanceElemId ++
                ["strings", "string", p1, "scriptid"]))
         | none => fetchTail fieldType (.str s))
      | _ => fetchTail fieldType (.str s)
    else fetchTail fieldType (.str s)
  | v => fetchTail fieldType v

mutual

/-- The body of `createEmptyObjectOfType` after the field has been looked
up: `fannots` are the field's annotations (checked for `DEFAULT_VALUE`)
and `fty` the field's type. -/
def createEmptyForField (fannots : Annots) (fty : SchemaType) : JsValue :=
  if JsValue.hasKeyE fannots DEFAULT_VALUE then JsValue.getE fannots DEFAULT_VALUE
  else
    match fty with
    | .list _ => arrayObject
    | .prim _ => nullObject
    | .obj tannots tfields =>
      if JsValue.hasKeyE tannots XML_TYPE && !JsValue.hasKeyE tannots IGNORE_T_VALUE then
        nullObject
      else
        let children := createEmptyChildren tfields
        if children.all (fun c =>
            JsValue.beq c.2 nullObject || JsValue.beq c.2 arrayObject) then
          nullObject
        else .obj children

/-- The recursive loop of `createEmptyObjectOfType` over the inner keys,
skipping fields whose annotations contain `DO_NOT_ADD`. -/
def createEmptyChildren : List (String × Annots × SchemaType) →
    List (String × JsValue)
  | [] => []
  | (n, a, ty) :: rest =>
    if JsValue.hasKeyE a DO_NOT_ADD then createEmptyChildren rest
    else (n, createEmptyForField a ty) :: createEmptyChildren rest

end

/-- `createEmptyObjectOfType(fieldType, key)`: look up the field of the
given key and synthesize its placeholder. The source assumes the key is
always a declared field; an absent key yields `undefined` here. -/
def createEmptyObjectOfType (fieldType : SchemaType) (key : String) : JsValue :=
  match (fieldsOf fieldType).find? (fun f => f.1 == key) with
  | some f => createEmptyForField f.2.1 f.2.2
  | none => .undefined

/-- `deployTransformFunc` of the analytics filter (the field-completion
pass applied at one node); `fieldType` is the resolved field type. -/
def deployTransformFunc (fieldType : Option SchemaType) (value : JsValue) :
    JsValue :=
  match fieldType, value with
  | some (.obj tannots tfields), .obj entries =>
    if JsValue.hasKeyE entries TYPE then .obj entries
    else if JsValue.hasKeyE tannots XML_TYPE && entries.length == 1 then
      .obj (JsValue.setE entries T (.str ((entries.map Prod.fst).getD 0 "")))
    else
      .obj (tfields.foldl (fun acc f =>
        if !JsValue.hasKeyE acc f.1 && !annotIsTrue f.2.1 DO_NOT_ADD then
          JsValue.setE acc f.1
            (if JsValue.hasKeyE f.2.1 DEFAULT_VALUE then
              JsValue.getE f.2.1 DEFAULT_VALUE
            else createEmptyObjectOfType (.obj tannots tfields) f.1)
        else acc) entries)
  | _, v => v

/-- `checkReference` of the analytics filter. -/
def checkReference (key : String) (value : JsValue) : JsValue :=
  if key == "translationScriptId" then
    match value.get key with
    | .ref e =>
      let name := elemFullName e
      if checkReferenceToTranslation name then
        let nameList := jsSplitDot name
        .str ((nameList.getD 3 "") ++ "." ++ (nameList.getD 6 ""))
      else .str name
    | v => v
  else value.get key

/-- `checkTypeField` of the analytics filter. -/
def checkTypeField (key : JsKey) (value : JsValue) : JsValue :=
  match idxK value key with
  | .arr l => .obj [(TYPE, .str "array"), (ITEM, .arr l)]
  | .bool b => .obj [(TYPE, .str "boolean"), (TEXT, .str (JsValue.jsString (.bool b)))]
  | .str s =>
    if isNumberStr s then .obj [(TYPE, .str "string"), (TEXT, .str s)]
    else .str s
  | v => v

/-- The shape-driven part of `checkT` (its second and third branches,
which inspect `value[key]` itself). -/
def checkTShape (innerVal : JsValue) : JsValue :=
  match innerVal with
  | .obj ikeys =>
    if JsValue.hasKeyE ikeys "xmlType" then
      .obj (JsValue.omitE (JsValue.setE ikeys T (JsValue.getE ikeys "xmlType")) "xmlType")
    else if ikeys.length == 2 && JsValue.hasKeyE ikeys T then
      let otherKey := ((ikeys.map Prod.fst).filter (fun k => k != T)).getD 0 ""
      .obj (JsValue.jsSpreadInto [(T, JsValue.getE ikeys T)]
        (JsValue.getE ikeys otherKey))
    else innerVal
  | _ => innerVal

/-- `checkT` of the analytics filter. -/
def checkT (key : JsKey) (value : JsValue) : JsValue :=
  match key with
  | .s k =>
    if k ∈ keysToAddT then
      .obj (JsValue.jsSpreadInto [(T, .str k)] (idxK value key))
    else checkTShape (idxK value key)
  | .i _ => checkTShape (idxK value key)

/-- One node step of `deployWalkFunc` of the analytics filter (the
recursion over children is performed by the external `walkOnValue`). -/
def deployWalkFunc (value : JsValue) : JsValue :=
  match value with
  | .obj entries =>
    let keys := entries.map Prod.fst
    let e1 := keys.foldl (fun acc k =>
      let acc1 := JsValue.setE acc k (checkT (.s k) (.obj acc))
      JsValue.setE acc1 k (checkReference k (.obj acc1))) entries
    if JsValue.hasKeyE e1 TYPE then .obj e1
    else .obj (keys.foldl (fun acc k =>
      JsValue.setE acc k (checkTypeField (.s k) (.obj acc))) e1)
  | .arr l =>
    (List.range l.length).foldl (fun acc i =>
      let acc1 := setK acc (.i i) (checkT (.i i) acc)
      setK acc1 (.i i) (checkTypeField (.i i) acc1)) (.arr l)
  | v => v

end Analytics

/-! ## The workbook-only filter -/

namespace Workbook

def TValuesToIgnore : List String := ["workbook"]

def fieldsWithT : List String :=
  ["pivot", "chart", "dataView", "dsLink", "cellConditionalFormat",
   "conditionalFormatRule", "rgbColor", "conditionalFormatFilter",
   "filter", "condition", "fieldReference", "dataSetFormula"]

def notAddingFields : List String :=
  fieldsWithT ++ ["fieldValidityState", "format", "definition", "mapping"]

def tvalIgnored : JsValue → Bool
  | .str t => t ∈ TValuesToIgnore
  | _ => false

/-- The `_T_` branch of the workbook `fetchTransformFunc` together with
the final `return value` for plain objects without `_T_`. -/
def fetchTBranch (fieldType : Option SchemaType)
    (entries : List (String × JsValue)) : JsValue :=
  if JsValue.hasKeyE entries T then
    let tval := JsValue.getE entries T
    if !isTaggedUnionObj fieldType then
      .obj (JsValue.jsSpreadInto [("xmlType", tval)] (.obj (JsValue.omitE entries T)))
    else if tvalIgnored tval then
      .obj (JsValue.omitE entries T)
    else
      .obj [(JsValue.jsString tval, .obj (JsValue.omitE entries T))]
  else
    .obj entries

def fetchTail (fieldType : Option SchemaType) (value : JsValue) : JsValue :=
  if isStringPrimType fieldType then .str (JsValue.jsString value) else value

/-- `fetchTransformFunc` of the workbook-only filter. Unlike the
analytics filter it consults no element source: a translation-prefixed
two-part string is turned into a `ReferenceExpression` unconditionally,
via `new ElemID(NETSUITE, finalElemIdPath)` whose second segment is the
whole dotted path. -/
def fetchTransformFunc (fieldType : Option SchemaType) (value : JsValue) :
    JsValue :=
  match value with
  | .obj entries =>
    if JsValue.hasKeyE entries TYPE then
      match JsValue.getE entries TYPE with
      | .str "null" => .obj []
      | .str "array" =>
        (match JsValue.getE entries ITEM with
         | .undefined => .arr []
         | .arr l => .arr l
         | v => .arr [v])
      | .str "boolean" => JsValue.getE entries TEXT
      | .str "string" => .str (JsValue.jsString (JsValue.getE entries TEXT))
      | _ => fetchTBranch fieldType entries
    else fetchTBranch fieldType entries
  | .str s =>
    if jsStartsWith s "custcollectiontranslations" then
      match jsSplitDot s with
      | [p0, p1] =>
        .ref [NETSUITE,
          "translationcollection.instance." ++ p0 ++
          ".strings.string." ++ p1 ++ ".scriptid"]
      | _ => fetchTail fieldType (.str s)
    else fetchTail fieldType (.str s)
  | v => fetchTail fieldType v

end Workbook

/-! ## The workbook change validator -/

namespace Validator

def unsupportedAttributes : List String := ["charts", "pivots", "datasetLinks"]

/-- `checkWorkbookValidity`: no unsupported attribute key is present in
the instance value. -/
def checkWorkbookValidity (workbookInstance : InstanceElem) : Bool :=
  (unsupportedAttributes.filter
    (fun attr => workbookInstance.value.hasKey attr)).isEmpty

inductive Severity where
  | Warning
  | SevError
deriving DecidableEq, Repr

structure ChangeError where
  elemID : List String
  severity : Severity
  message : String
  detailedMessage : String
deriving DecidableEq, Repr

/-- A change is either an instance change carrying its instance data or
some other kind of change (filtered out by `isInstanceChange`). -/
inductive Change where
  | instChange : InstanceElem → Change
  | nonInstChange : Change

/-- `filter(isInstanceChange).map(getChangeData)` step function. -/
def getInstData : Change → Option InstanceElem
  | .instChange i => some i
  | .nonInstChange => none

/-- The workbook change validator. -/
def changeValidator (changes : List Change) : List ChangeError :=
  ((((changes.filterMap getInstData).filter
      (fun inst => elemTypeName inst.elemID == WORKBOOK)).filter
      (fun inst => !checkWorkbookValidity inst)).map
      (fun inst =>
        { elemID := inst.elemID
          severity := .Warning
          message := "The deployment of this workbook will probably not have an effect on the target environment as this workbook contains pivots, charts, or data links."
          detailedMessage := "Deployment of workbooks that contain pivots, charts, or data links is not supported" }))

end Validator

/-! ## Vocabulary used by the theorem statements -/

/-- Lodash `isBoolean`. -/
def JsValue.isBoolean : JsValue → Bool
  | .bool _ => true
  | _ => false

/-- A wire scalar: a string, a number, or a boolean. -/
def JsValue.isScalar : JsValue → Bool
  | .str _ => true
  | .num _ => true
  | .bool _ => true
  | _ => false

/-- The action of the analytics `checkT` on the inner value `value[key]`
for a string key (the function reads the parent only at that key). -/
def checkTValA (k : String) (v : JsValue) : JsValue :=
  if k ∈ Analytics.keysToAddT then .obj (JsValue.jsSpreadInto [(T, .str k)] v)
  else Analytics.checkTShape v

/-- The action of the analytics `checkReference` on the inner value. -/
def checkRefValA (k : String) (v : JsValue) : JsValue :=
  if k == "translationScriptId" then
    match v with
    | .ref e =>
      let name := elemFullName e
      if checkReferenceToTranslation name then
        let nameList := jsSplitDot name
        .str ((nameList.getD 3 "") ++ "." ++ (nameList.getD 6 ""))
      else .str name
    | v => v
  else v

/-- The action of the analytics `checkTypeField` on the inner value. -/
def checkTypeFieldValA (v : JsValue) : JsValue :=
  match v with
  | .arr l => .obj [(TYPE, .str "array"), (ITEM, .arr l)]
  | .bool b => .obj [(TYPE, .str "boolean"), (TEXT, .str (JsValue.jsString (.bool b)))]
  | .str s =>
    if isNumberStr s then .obj [(TYPE, .str "string"), (TEXT, .str s)]
    else .str s
  | v => v

/-- The combined per-key action of the first deploy walk pass
(`checkT` then `checkReference`) on the inner value. -/
def walkPass1Val (k : String) (v : JsValue) : JsValue :=
  checkRefValA k (checkTValA k v)

/-- The sibling translation-collection document of the reference
round-trip scenario. -/
def translationCollectionInstance : InstanceElem where
  elemID := ["netsuite", "translationcollection", "instance",
    "custcollectiontranslations123"]
  value := .obj [("strings", .obj [("string", .obj [("greeting",
    .obj [("scriptid", .str "abc")])])])]

/-! ## Basic lemmas about the object-entry operations -/

namespace JsValue

theorem getE_cons (a : String) (w : JsValue) (rest : List (String × JsValue))
    (k : String) : getE ((a, w) :: rest) k = if a = k then w else getE rest k := by
  by_cases h : a = k <;> simp [getE, List.find?_cons, h]

theorem hasKeyE_cons (a : String) (w : JsValue) (rest : List (String × JsValue))
    (k : String) :
    hasKeyE ((a, w) :: rest) k = if a = k then true else hasKeyE rest k := by
  by_cases h : a = k <;> simp [hasKeyE, h]

theorem setE_cons (a : String) (w : JsValue) (rest : List (String × JsValue))
    (k : String) (v : JsValue) :
    setE ((a, w) :: rest) k v =
      if a = k then (k, v) :: rest else (a, w) :: setE rest k v := by
  by_cases h : a = k <;> simp [setE, h]

theorem omitE_cons (a : String) (w : JsValue) (rest : List (String × JsValue))
    (k : String) :
    omitE ((a, w) :: rest) k =
      if a = k then omitE rest k else (a, w) :: omitE rest k := by
  by_cases h : a = k <;> simp [omitE, List.filter_cons, h]

theorem getE_setE_self (l : List (String × JsValue)) (k : String) (v : JsValue) :
    getE (setE l k v) k = v := by
  induction l with
  | nil => simp [setE, getE_cons]
  | cons e rest ih =>
    obtain ⟨a, w⟩ := e
    rw [setE_cons]
    by_cases h : a = k <;> simp [getE_cons, h, ih]

theorem getE_setE_ne (l : List (String × JsValue)) {k k' : String}
    (h : k' ≠ k) (v : JsValue) : getE (setE l k' v) k = getE l k := by
  induction l with
  | nil => simp [setE, getE_cons, getE, h]
  | cons e rest ih =>
    obtain ⟨a, w⟩ := e
    rw [setE_cons]
    by_cases ha : a = k'
    · subst ha
      simp [getE_cons, h]
    · by_cases hak : a = k <;> simp [getE_cons, ha, hak, ih, Ne.symm h]

theorem setE_setE_same (l : List (String × JsValue)) (k : String)
    (v w : JsValue) : setE (setE l k v) k w = setE l k w := by
  induction l with
  | nil => simp [setE]
  | cons e rest ih =>
    obtain ⟨a, u⟩ := e
    rw [setE_cons]
    by_cases h : a = k <;> simp [setE_cons, setE, h, ih]

theorem hasKeyE_setE_self (l : List (String × JsValue)) (k : String)
    (v : JsValue) : hasKeyE (setE l k v) k = true := by
  induction l with
  | nil => simp [setE, hasKeyE_cons]
  | cons e rest ih =>
    obtain ⟨a, w⟩ := e
    rw [setE_cons]
    by_cases h : a = k <;> simp [hasKeyE_cons, h, ih]

theorem hasKeyE_setE_ne (l : List (String × JsValue)) {k k' : String}
    (h : k' ≠ k) (v : JsValue) : hasKeyE (setE l k' v) k = hasKeyE l k := by
  induction l with
  | nil => simp [setE, hasKeyE_cons, hasKeyE, h]
  | cons e rest ih =>
    obtain ⟨a, w⟩ := e
    rw [setE_cons]
    by_cases ha : a = k'
    · subst ha
      simp [hasKeyE_cons, h]
    · by_cases hak : a = k <;> simp [hasKeyE_cons, ha, hak, ih, Ne.symm h]

theorem setE_fresh (l : List (String × JsValue)) {k : String}
    (h : hasKeyE l k = false) (v : JsValue) : setE l k v = l ++ [(k, v)] := by
  induction l with
  | nil => simp [setE]
  | cons e rest ih =>
    obtain ⟨a, w⟩ := e
    rw [hasKeyE_cons] at h
    by_cases ha : a = k
    · simp [ha] at h
    · rw [setE_cons]
      simp only [ha, if_false]
      rw [ih (by simpa [ha] using h)]
      simp

theorem getE_of_not_has (l : List (String × JsValue)) {k : String}
    (h : hasKeyE l k = false) : getE l k = .undefined := by
  induction l with
  | nil => simp [getE]
  | cons e rest ih =>
    obtain ⟨a, w⟩ := e
    rw [hasKeyE_cons] at h
    by_cases ha : a = k
    · simp [ha] at h
    · rw [getE_cons]
      simp only [ha, if_false]
      exact ih (by simpa [ha] using h)

theorem hasKeyE_of_getE {l : List (String × JsValue)} {k : String}
    (h : getE l k ≠ .undefined) : hasKeyE l k = true := by
  by_contra hc
  exact h (getE_of_not_has l (by simpa using hc))

theorem hasKeyE_append (l l' : List (String × JsValue)) (k : String) :
    hasKeyE (l ++ l') k = (hasKeyE l k || hasKeyE l' k) := by
  simp [hasKeyE]

theorem getE_append_left (l l' : List (String × JsValue)) {k : String}
    (h : hasKeyE l k = true) : getE (l ++ l') k = getE l k := by
  induction l with
  | nil => simp [hasKeyE] at h
  | cons e rest ih =>
    obtain ⟨a, w⟩ := e
    rw [hasKeyE_cons] at h
    by_cases ha : a = k
    · simp [getE_cons, ha]
    · simp only [List.cons_append]
      rw [getE_cons, getE_cons]
      simp only [ha, if_false]
      exact ih (by simpa [ha] using h)

theorem hasKeyE_iff_mem (l : List (String × JsValue)) (k : String) :
    hasKeyE l k = true ↔ k ∈ l.map Prod.fst := by
  induction l with
  | nil => simp [hasKeyE]
  | cons e rest ih =>
    obtain ⟨a, w⟩ := e
    rw [hasKeyE_cons]
    by_cases h : a = k
    · simp [h]
    · have h' : ¬ k = a := fun hc => h hc.symm
      simp [h, h', ih]

theorem getE_of_mem_nodup {l : List (String × JsValue)} {k : String}
    {v : JsValue} (hnd : (l.map Prod.fst).Nodup) (h : (k, v) ∈ l) :
    getE l k = v := by
  induction l with
  | nil => simp at h
  | cons e rest ih =>
    obtain ⟨a, w⟩ := e
    rw [List.map_cons, List.nodup_cons] at hnd
    rcases List.mem_cons.mp h with h | h
    · have h1 : k = a := congrArg Prod.fst h
      have h2 : v = w := congrArg Prod.snd h
      rw [getE_cons, if_pos h1.symm, h2]
    · have hne : a ≠ k := by
        intro hc
        exact hnd.1 (by rw [hc]; exact List.mem_map.mpr ⟨(k, v), h, rfl⟩)
      rw [getE_cons, if_neg hne]
      exact ih hnd.2 h

theorem foldl_setE_append (l : List (String × JsValue)) :
    ∀ base : List (String × JsValue),
    (∀ e ∈ l, hasKeyE base e.1 = false) → (l.map Prod.fst).Nodup →
    l.foldl (fun acc e => setE acc e.1 e.2) base = base ++ l := by
  induction l with
  | nil => intro base _ _; simp
  | cons e rest ih =>
    intro base hdisj hnd
    obtain ⟨a, w⟩ := e
    rw [List.map_cons, List.nodup_cons] at hnd
    simp only [List.foldl_cons]
    rw [setE_fresh base (hdisj (a, w) (by simp))]
    have hfresh : ∀ e' ∈ rest, hasKeyE (base ++ [(a, w)]) e'.1 = false := by
      intro e' he'
      rw [hasKeyE_append]
      have h1 := hdisj e' (List.mem_cons_of_mem _ he')
      have h2 : a ≠ e'.1 := by
        intro hc
        exact hnd.1 (by rw [hc]; exact List.mem_map.mpr ⟨e', he', rfl⟩)
      rw [h1, hasKeyE_cons]
      simp [h2, hasKeyE]
    rw [ih (base ++ [(a, w)]) hfresh hnd.2]
    simp

theorem omitE_of_not_has (l : List (String × JsValue)) {k : String}
    (h : hasKeyE l k = false) : omitE l k = l := by
  induction l with
  | nil => simp [omitE]
  | cons e rest ih =>
    obtain ⟨a, w⟩ := e
    rw [hasKeyE_cons] at h
    by_cases ha : a = k
    · simp [ha] at h
    · rw [omitE_cons]
      simp only [ha, if_false]
      rw [ih (by simpa [ha] using h)]

theorem getE_foldl_pointwise (f : String → JsValue → JsValue) :
    ∀ ks : List String, ks.Nodup →
    ∀ (acc : List (String × JsValue)) (k : String),
    getE (ks.foldl (fun a k' => setE a k' (f k' (getE a k'))) acc) k =
      if k ∈ ks then f k (getE acc k) else getE acc k := by
  intro ks
  induction ks with
  | nil => intro _ acc k; simp
  | cons k0 rest ih =>
    intro hnd acc k
    rw [List.nodup_cons] at hnd
    simp only [List.foldl_cons]
    by_cases hk : k = k0
    · subst hk
      rw [ih hnd.2 _ k]
      simp [hnd.1, getE_setE_self]
    · rw [ih hnd.2 _ k]
      rw [getE_setE_ne acc (Ne.symm hk)]
      simp [hk]

theorem hasKeyE_foldl_pointwise (f : String → JsValue → JsValue) :
    ∀ (ks : List String) (acc : List (String × JsValue)) (k : String),
    hasKeyE (ks.foldl (fun a k' => setE a k' (f k' (getE a k'))) acc) k =
      (hasKeyE acc k || decide (k ∈ ks)) := by
  intro ks
  induction ks with
  | nil => intro acc k; simp
  | cons k0 rest ih =>
    intro acc k
    simp only [List.foldl_cons]
    rw [ih]
    by_cases hk : k = k0
    · subst hk
      rw [hasKeyE_setE_self]
      simp
    · rw [hasKeyE_setE_ne acc (Ne.symm hk)]
      simp [hk]

end JsValue

/-! ## Claims -/

/-- Claim C1 (as amended): for a plain object carrying the sentinel
discriminator `@_type`, the analytics fetch normalizer maps `null` to an
empty mapping; `array` to the `_ITEM_` payload unchanged when it is a
sequence, a singleton sequence when it is a scalar, and an empty
sequence when it is absent; `boolean` to the `#text` payload returned
unchanged (no cast); and `string` to the `#text` payload cast to a
string. -/
theorem c1_sentinel_decode (es elements : List InstanceElem)
    (ft : Option SchemaType) (entries : List (String × JsValue)) :
    (JsValue.getE entries TYPE = .str "null" →
      Analytics.fetchTransformFunc es elements ft (.obj entries) = .obj []) ∧
    (JsValue.getE entries TYPE = .str "array" →
      (JsValue.getE entries ITEM = .undefined →
        Analytics.fetchTransformFunc es elements ft (.obj entries) = .arr []) ∧
      (∀ l, JsValue.getE entries ITEM = .arr l →
        Analytics.fetchTransformFunc es elements ft (.obj entries) = .arr l) ∧
      (∀ p, JsValue.getE entries ITEM = p → p.isScalar = true →
        Analytics.fetchTransformFunc es elements ft (.obj entries) = .arr [p])) ∧
    (JsValue.getE entries TYPE = .str "boolean" →
      Analytics.fetchTransformFunc es elements ft (.obj entries) =
        JsValue.getE entries TEXT) ∧
    (JsValue.getE entries TYPE = .str "string" →
      Analytics.fetchTransformFunc es elements ft (.obj entries) =
        .str (JsValue.jsString (JsValue.getE entries TEXT))) := by
  refine ⟨?_, ?_, ?_, ?_⟩
  · intro h
    have hk : JsValue.hasKeyE entries TYPE = true :=
      JsValue.hasKeyE_of_getE (by rw [h]; simp)
    simp [Analytics.fetchTransformFunc, hk, h]
  · intro h
    have hk : JsValue.hasKeyE entries TYPE = true :=
      JsValue.hasKeyE_of_getE (by rw [h]; simp)
    refine ⟨?_, ?_, ?_⟩
    · intro hitem
      simp [Analytics.fetchTransformFunc, hk, h, hitem]
    · intro l hitem
      simp [Analytics.fetchTransformFunc, hk, h, hitem]
    · intro p hitem hs
      cases p <;> simp_all [Analytics.fetchTransformFunc, hk, h,
        JsValue.isScalar]
  · intro h
    have hk : JsValue.hasKeyE entries TYPE = true :=
      JsValue.hasKeyE_of_getE (by rw [h]; simp)
    simp [Analytics.fetchTransformFunc, hk, h]
  · intro h
    have hk : JsValue.hasKeyE entries TYPE = true :=
      JsValue.hasKeyE_of_getE (by rw [h]; simp)
    simp [Analytics.fetchTransformFunc, hk, h]

/-- Witness for C1: decoding the concrete null sentinel yields the empty
mapping. -/
theorem c1_sentinel_decode_witness :
    Analytics.fetchTransformFunc [] [] none (.obj [(TYPE, .str "null")]) =
      .obj [] :=
  (c1_sentinel_decode [] [] none [(TYPE, .str "null")]).1 rfl

/-- Counterexample for C1 as stated: decoding the boolean sentinel
`{'@_type': 'boolean', '#text': 'false'}` returns the string `'false'`
unchanged — not a value cast to the boolean primitive. -/
theorem c1_counterexample :
    Analytics.fetchTransformFunc [] [] none
      (.obj [(TYPE, .str "boolean"), (TEXT, .str "false")]) = .str "false" ∧
    (JsValue.str "false").isBoolean = false :=
  ⟨rfl, rfl⟩

/-- Claim C2 (as amended): the sentinel encode (`checkTypeField`) and
decode (sentinel branch of the analytics `fetchTransformFunc`) are
mutually inverse for sequences (array sentinels with sequence payloads)
and for numeric strings; encoding the boolean `true` yields
`{'@_type': 'boolean', '#text': 'true'}`, but decoding a boolean
sentinel returns its `#text` payload unchanged (so decoding that
wrapper yields the string `'true'`, not the boolean `true`); the null
sentinel decodes to an empty mapping, which `checkTypeField` does not
re-encode. -/
theorem c2_sentinel_inverse (l : List JsValue) (s : String) (p : JsValue)
    (hs : isNumberStr s = true) :
    (Analytics.fetchTransformFunc [] [] none
      (Analytics.checkTypeField (.s "k") (.obj [("k", .arr l)])) = .arr l) ∧
    (Analytics.checkTypeField (.s "k") (.obj [("k",
      Analytics.fetchTransformFunc [] [] none
        (.obj [(TYPE, .str "array"), (ITEM, .arr l)]))]) =
      .obj [(TYPE, .str "array"), (ITEM, .arr l)]) ∧
    (Analytics.fetchTransformFunc [] [] none
      (Analytics.checkTypeField (.s "k") (.obj [("k", .str s)])) = .str s) ∧
    (Analytics.checkTypeField (.s "k") (.obj [("k",
      Analytics.fetchTransformFunc [] [] none
        (.obj [(TYPE, .str "string"), (TEXT, .str s)]))]) =
      .obj [(TYPE, .str "string"), (TEXT, .str s)]) ∧
    (Analytics.checkTypeField (.s "k") (.obj [("k", .bool true)]) =
      .obj [(TYPE, .str "boolean"), (TEXT, .str "true")]) ∧
    (Analytics.fetchTransformFunc [] [] none
      (.obj [(TYPE, .str "boolean"), (TEXT, p)]) = p) ∧
    (Analytics.fetchTransformFunc [] [] none (.obj [(TYPE, .str "null")]) =
      .obj []) ∧
    (Analytics.checkTypeField (.s "k") (.obj [("k", .obj [])]) = .obj []) := by
  have henc : Analytics.checkTypeField (.s "k") (.obj [("k", .str s)]) =
      .obj [(TYPE, .str "string"), (TEXT, .str s)] := by
    simp [Analytics.checkTypeField, idxK, JsValue.getE_cons, hs]
  refine ⟨rfl, rfl, ?_, ?_, rfl, rfl, rfl, rfl⟩
  · rw [henc]
    rfl
  · have hdec : Analytics.fetchTransformFunc [] [] none
        (.obj [(TYPE, .str "string"), (TEXT, .str s)]) = .str s := rfl
    rw [hdec, henc]

/-- Witness for C2: the numeric string `'123'` round-trips through
encode-then-decode. -/
theorem c2_sentinel_inverse_witness :
    Analytics.fetchTransformFunc [] [] none
      (Analytics.checkTypeField (.s "k") (.obj [("k", .str "123")])) =
      .str "123" :=
  (c2_sentinel_inverse [] "123" .undefined rfl).2.2.1

/-- Counterexample for C2 as stated: decoding
`{'@_type': 'boolean', '#text': 'true'}` yields the string `'true'`,
not the boolean `true`, and re-encoding that string leaves it unchanged
(it is not numeric), so neither inverse law holds for booleans. -/
theorem c2_counterexample :
    Analytics.fetchTransformFunc [] [] none
      (.obj [(TYPE, .str "boolean"), (TEXT, .str "true")]) = .str "true" ∧
    (JsValue.str "true").isBoolean = false ∧
    Analytics.checkTypeField (.s "k") (.obj [("k", .str "true")]) =
      .str "true" :=
  ⟨rfl, rfl, rfl⟩

/-- Claim C6 (as amended): normalizing
`"custcollectiontranslations123.greeting"` with a resolvable sibling
translation-collection document yields a structured reference to its
`strings.string.greeting.scriptid` field, and denormalizing that
reference (`checkReference`) yields back the original string
`"custcollectiontranslations123.greeting"` (the full collection script
id, not the prefix-stripped `"123.greeting"`). -/
theorem c6_reference_roundtrip :
    Analytics.fetchTransformFunc [translationCollectionInstance] [] none
      (.str "custcollectiontranslations123.greeting") =
      .ref ["netsuite", "translationcollection", "instance",
        "custcollectiontranslations123", "strings", "string", "greeting",
        "scriptid"] ∧
    Analytics.checkReference "translationScriptId"
      (.obj [("translationScriptId", .ref ["netsuite", "translationcollection",
        "instance", "custcollectiontranslations123", "strings", "string",
        "greeting", "scriptid"])]) =
      .str "custcollectiontranslations123.greeting" :=
  ⟨rfl, rfl⟩

/-- Counterexample for C6 as stated: denormalizing the reference
produced by the round-trip scenario yields
`"custcollectiontranslations123.greeting"`, not `"123.greeting"`
(segment 3 of the full name is the whole collection script id,
prefix included). -/
theorem c6_counterexample :
    Analytics.checkReference "translationScriptId"
      (.obj [("translationScriptId", .ref ["netsuite", "translationcollection",
        "instance", "custcollectiontranslations123", "strings", "string",
        "greeting", "scriptid"])]) ≠ .str "123.greeting" := by
  have h : Analytics.checkReference "translationScriptId"
      (.obj [("translationScriptId", .ref ["netsuite", "translationcollection",
        "instance", "custcollectiontranslations123", "strings", "string",
        "greeting", "scriptid"])]) =
      .str "custcollectiontranslations123.greeting" := rfl
  rw [h]
  intro hc
  injection hc with hc'
  exact absurd hc' (by decide)

/-- Claim C3 (as amended): on deploy, the analytics `checkT` collapses a
nested single-field mapping exactly at parent keys in
`keysToAddT = {'formula'}`, producing `{_T_: 'formula', ...fields}`; on
fetch at a tagged-union schema node, a tag in
`TValuesToIgnore = {'workbook', 'dataSet', 'formula'}` has its
discriminator dropped with the remaining fields kept flat, while a tag
outside the ignore-set gets the remaining fields nested one level
deeper under the tag; since `'formula'` is in the ignore-set, the
collapse-then-drop pair restores the collapsed value exactly. -/
theorem c3_tagged_union (es elements : List InstanceElem) :
    (∀ fentries : List (String × JsValue), (fentries.map Prod.fst).Nodup →
      JsValue.hasKeyE fentries T = false →
      Analytics.checkT (.s "formula") (.obj [("formula", .obj fentries)]) =
        .obj ((T, .str "formula") :: fentries)) ∧
    (∀ (ft : Option SchemaType) (entries : List (String × JsValue)) (t : String),
      isTaggedUnionObj ft = true →
      JsValue.hasKeyE entries TYPE = false →
      JsValue.getE entries T = .str t →
      ((t ∈ Analytics.TValuesToIgnore →
        Analytics.fetchTransformFunc es elements ft (.obj entries) =
          .obj (JsValue.omitE entries T)) ∧
       (t ∉ Analytics.TValuesToIgnore →
        Analytics.fetchTransformFunc es elements ft (.obj entries) =
          .obj [(t, .obj (JsValue.omitE entries T))]))) ∧
    (∀ (ft : Option SchemaType) (fentries : List (String × JsValue)),
      isTaggedUnionObj ft = true →
      (fentries.map Prod.fst).Nodup →
      JsValue.hasKeyE fentries T = false →
      JsValue.hasKeyE fentries TYPE = false →
      Analytics.fetchTransformFunc es elements ft
        (Analytics.checkT (.s "formula")
          (.obj [("formula", .obj fentries)])) = .obj fentries) := by
  have hcollapse : ∀ fentries : List (String × JsValue),
      (fentries.map Prod.fst).Nodup → JsValue.hasKeyE fentries T = false →
      Analytics.checkT (.s "formula") (.obj [("formula", .obj fentries)]) =
        .obj ((T, .str "formula") :: fentries) := by
    intro fentries hnd hT
    have hmem : "formula" ∈ Analytics.keysToAddT := by decide
    simp only [Analytics.checkT, hmem, if_true, idxK, JsValue.getE_cons,
      if_pos rfl, JsValue.jsSpreadInto, JsValue.spreadEntriesOf]
    rw [JsValue.foldl_setE_append fentries [(T, .str "formula")] ?_ hnd]
    · simp
    · intro e he
      have hne : T ≠ e.1 := by
        intro hc
        exact absurd ((JsValue.hasKeyE_iff_mem fentries T).mpr
          (List.mem_map.mpr ⟨e, he, hc.symm⟩)) (by simp [hT])
      rw [JsValue.hasKeyE_cons]
      simp [hne, JsValue.hasKeyE]
  have hexpand : ∀ (ft : Option SchemaType) (entries : List (String × JsValue))
      (t : String), isTaggedUnionObj ft = true →
      JsValue.hasKeyE entries TYPE = false →
      JsValue.getE entries T = .str t →
      ((t ∈ Analytics.TValuesToIgnore →
        Analytics.fetchTransformFunc es elements ft (.obj entries) =
          .obj (JsValue.omitE entries T)) ∧
       (t ∉ Analytics.TValuesToIgnore →
        Analytics.fetchTransformFunc es elements ft (.obj entries) =
          .obj [(t, .obj (JsValue.omitE entries T))])) := by
    intro ft entries t hft hTYPE hTv
    have hkT : JsValue.hasKeyE entries T = true :=
      JsValue.hasKeyE_of_getE (by rw [hTv]; simp)
    constructor
    · intro hmem
      simp [Analytics.fetchTransformFunc, hTYPE, Analytics.fetchTBranch, hkT,
        hft, hTv, Analytics.tvalIgnored, hmem]
    · intro hmem
      simp [Analytics.fetchTransformFunc, hTYPE, Analytics.fetchTBranch, hkT,
        hft, hTv, Analytics.tvalIgnored, hmem, JsValue.jsString]
  refine ⟨hcollapse, hexpand, ?_⟩
  intro ft fentries hft hnd hT hTYPE
  rw [hcollapse fentries hnd hT]
  have hTYPE' : JsValue.hasKeyE ((T, .str "formula") :: fentries) TYPE = false := by
    rw [JsValue.hasKeyE_cons]
    have : T ≠ TYPE := by decide
    simp [this, hTYPE]
  have hTv : JsValue.getE ((T, .str "formula") :: fentries) T = .str "formula" := by
    rw [JsValue.getE_cons]
    simp
  have := (hexpand ft ((T, .str "formula") :: fentries) "formula" hft hTYPE' hTv).1
    (by decide)
  rw [this]
  have homit : JsValue.omitE ((T, .str "formula") :: fentries) T = fentries := by
    rw [JsValue.omitE_cons]
    simp [JsValue.omitE_of_not_has fentries hT]
  rw [homit]

/-- Witness for C3: collapsing `{formula: {field1: 'x'}}` and fetching
the result at a tagged-union node restores the inner mapping. -/
theorem c3_tagged_union_witness :
    Analytics.fetchTransformFunc [] [] (some (.obj [(XML_TYPE, .bool true)] []))
      (Analytics.checkT (.s "formula")
        (.obj [("formula", .obj [("field1", .str "x")])])) =
      .obj [("field1", .str "x")] :=
  (c3_tagged_union [] []).2.2 (some (.obj [(XML_TYPE, .bool true)] []))
    [("field1", .str "x")] rfl (by simp) (by decide) (by decide)

/-- Counterexample for C3 as stated: `'formula'` is in the configured
ignore-set, the collapse does not fire for the non-ignored tag
`'condition'` (`checkT` leaves `{condition: {field1:'x'}}` unchanged),
and fetching `{_T_: 'formula', field1: 'x'}` at a tagged-union node
drops the discriminator flat instead of nesting under `'formula'`. -/
theorem c3_counterexample :
    Analytics.checkT (.s "condition")
      (.obj [("condition", .obj [("field1", .str "x")])]) =
      .obj [("field1", .str "x")] ∧
    Analytics.fetchTransformFunc [] [] (some (.obj [(XML_TYPE, .bool true)] []))
      (.obj [(T, .str "formula"), ("field1", .str "x")]) =
      .obj [("field1", .str "x")] ∧
    "formula" ∈ Analytics.TValuesToIgnore ∧
    "condition" ∉ Analytics.TValuesToIgnore :=
  ⟨rfl, rfl, by decide, by decide⟩


/-- `fetchTail` (the trailing string-coercion step) never changes a
string value. -/
theorem fetchTail_str (ft : Option SchemaType) (s : String) :
    Analytics.fetchTail ft (.str s) = .str s := by
  by_cases h : isStringPrimType ft = true <;>
    simp [Analytics.fetchTail, h, JsValue.jsString]

/-- Claim C7 (as amended): in the analytics fetch transform, a
translation-prefixed two-part string whose sibling translation document
cannot be located, or whose string entry has no scriptid, normalizes to
the unchanged original string, and a structured reference is produced
only when the document is found with a defined scriptid; the
workbook-only fetch transform, by contrast, produces the reference
unconditionally, without any verification. -/
theorem c7_unresolvable_reference (es elements : List InstanceElem)
    (ft : Option SchemaType) (s p0 p1 : String)
    (hpre : jsStartsWith s "custcollectiontranslations" = true)
    (hsplit : jsSplitDot s = [p0, p1]) :
    (Analytics.instLookup es elements
        [NETSUITE, "translationcollection", "instance", p0] = none →
      Analytics.fetchTransformFunc es elements ft (.str s) = .str s) ∧
    (∀ i, Analytics.instLookup es elements
        [NETSUITE, "translationcollection", "instance", p0] = some i →
      Analytics.scriptidOf i.value p1 = .undefined →
      Analytics.fetchTransformFunc es elements ft (.str s) = .str s) ∧
    (∀ r, Analytics.fetchTransformFunc es elements ft (.str s) = .ref r →
      ∃ i, Analytics.instLookup es elements
          [NETSUITE, "translationcollection", "instance", p0] = some i ∧
        Analytics.scriptidOf i.value p1 ≠ .undefined) ∧
    (Workbook.fetchTransformFunc ft (.str s) =
      .ref [NETSUITE, "translationcollection.instance." ++ p0 ++
        ".strings.string." ++ p1 ++ ".scriptid"]) := by
  have hstr1 : Analytics.instLookup es elements
      [NETSUITE, "translationcollection", "instance", p0] = none →
      Analytics.fetchTransformFunc es elements ft (.str s) = .str s := by
    intro hl
    simp [Analytics.fetchTransformFunc, hpre, hsplit, hl, fetchTail_str]
  have hstr2 : ∀ i, Analytics.instLookup es elements
      [NETSUITE, "translationcollection", "instance", p0] = some i →
      Analytics.scriptidOf i.value p1 = .undefined →
      Analytics.fetchTransformFunc es elements ft (.str s) = .str s := by
    intro i hl hsc
    simp [Analytics.fetchTransformFunc, hpre, hsplit, hl, hsc, fetchTail_str]
  refine ⟨hstr1, hstr2, ?_, ?_⟩
  · intro r h
    cases hl : Analytics.instLookup es elements
        [NETSUITE, "translationcollection", "instance", p0] with
    | none =>
      rw [hstr1 hl] at h
      exact JsValue.noConfusion h
    | some i =>
      by_cases hsc : Analytics.scriptidOf i.value p1 = .undefined
      · rw [hstr2 i hl hsc] at h
        exact JsValue.noConfusion h
      · exact ⟨i, rfl, hsc⟩
  · simp [Workbook.fetchTransformFunc, hpre, hsplit]

/-- Witness for C7: the unresolvable translation-prefixed string is
returned unchanged by the analytics transform when both lookups are
empty. -/
theorem c7_unresolvable_reference_witness :
    Analytics.fetchTransformFunc [] [] none
      (.str "custcollectiontranslationsfoo.bar") =
      .str "custcollectiontranslationsfoo.bar" :=
  (c7_unresolvable_reference [] [] none "custcollectiontranslationsfoo.bar"
    "custcollectiontranslationsfoo" "bar" rfl rfl).1 rfl

/-- Counterexample for C7 as stated: the workbook-only fetch transform
turns the same unresolvable string into a structured reference rather
than leaving it unchanged, so the property does not hold in both
transforms. -/
theorem c7_counterexample :
    Workbook.fetchTransformFunc none (.str "custcollectiontranslationsfoo.bar") =
      .ref ["netsuite",
        "translationcollection.instance.custcollectiontranslationsfoo.strings.string.bar.scriptid"] ∧
    Workbook.fetchTransformFunc none (.str "custcollectiontranslationsfoo.bar") ≠
      .str "custcollectiontranslationsfoo.bar" := by
  have h : Workbook.fetchTransformFunc none
      (.str "custcollectiontranslationsfoo.bar") =
      .ref ["netsuite",
        "translationcollection.instance.custcollectiontranslationsfoo.strings.string.bar.scriptid"] :=
    rfl
  refine ⟨h, ?_⟩
  rw [h]
  intro hc
  exact JsValue.noConfusion hc

/-- Claim C9: for a plain object carrying `_T_` at a position where the
resolved field type is not a tagged-union object type (or is
unavailable), the analytics fetch normalizer returns the value with the
discriminator renamed to the marker field `xmlType`, placed first,
followed by the remaining fields. -/
theorem c9_unexpected_discriminator (es elements : List InstanceElem)
    (ft : Option SchemaType) (entries : List (String × JsValue)) (t : JsValue)
    (hTv : JsValue.getE entries T = t)
    (hkT : JsValue.hasKeyE entries T = true)
    (hTYPE : JsValue.hasKeyE entries TYPE = false)
    (hft : isTaggedUnionObj ft = false)
    (hx : JsValue.hasKeyE (JsValue.omitE entries T) "xmlType" = false)
    (hnd : ((JsValue.omitE entries T).map Prod.fst).Nodup) :
    Analytics.fetchTransformFunc es elements ft (.obj entries) =
      .obj (("xmlType", t) :: JsValue.omitE entries T) := by
  simp only [Analytics.fetchTransformFunc, hTYPE, Bool.false_eq_true,
    if_false, Analytics.fetchTBranch, hkT, if_true, hft, Bool.not_false,
    JsValue.jsSpreadInto, JsValue.spreadEntriesOf, hTv]
  rw [JsValue.foldl_setE_append _ [("xmlType", t)] ?_ hnd]
  · simp
  · intro e he
    have hne : "xmlType" ≠ e.1 := by
      intro hc
      exact absurd ((JsValue.hasKeyE_iff_mem _ _).mpr
        (List.mem_map.mpr ⟨e, he, hc.symm⟩)) (by simp [hx])
    rw [JsValue.hasKeyE_cons]
    simp [hne, JsValue.hasKeyE]

/-- Witness for C9: a concrete `_T_`-carrying object with no resolved
field type is exposed via the `xmlType` marker. -/
theorem c9_unexpected_discriminator_witness :
    Analytics.fetchTransformFunc [] [] none
      (.obj [(T, .str "z"), ("a", .num 1)]) =
      .obj [("xmlType", .str "z"), ("a", .num 1)] :=
  c9_unexpected_discriminator [] [] none [(T, .str "z"), ("a", .num 1)]
    (.str "z") rfl rfl rfl rfl rfl (by decide)

/-- Folding a step function that never changes the value of a key
already present in the accumulator preserves present keys and their
values. -/
theorem foldl_preserve {α : Type}
    (step : List (String × JsValue) → α → List (String × JsValue))
    (hstep : ∀ acc x k, JsValue.hasKeyE acc k = true →
      JsValue.getE (step acc x) k = JsValue.getE acc k ∧
      JsValue.hasKeyE (step acc x) k = true) :
    ∀ (l : List α) (acc : List (String × JsValue)) (k : String),
      JsValue.hasKeyE acc k = true →
      JsValue.getE (l.foldl step acc) k = JsValue.getE acc k ∧
      JsValue.hasKeyE (l.foldl step acc) k = true := by
  intro l
  induction l with
  | nil => intro acc k h; exact ⟨rfl, h⟩
  | cons x rest ih =>
    intro acc k h
    have hs := hstep acc x k h
    have hr := ih (step acc x) k hs.2
    exact ⟨hr.1.trans hs.1, hr.2⟩

/-- Claim C4: on a canonical value (one carrying no `_T_` discriminator),
the deploy field-completion pass (`deployTransformFunc`) never removes
an existing field and never overwrites the value of a field already
present: every key present in the input is present in the output with
its original value. -/
theorem c4_field_completion_additive (ft : Option SchemaType)
    (entries : List (String × JsValue))
    (hT : JsValue.hasKeyE entries T = false) (k : String)
    (hk : JsValue.hasKeyE entries k = true) :
    (Analytics.deployTransformFunc ft (.obj entries)).get k =
      JsValue.getE entries k ∧
    (Analytics.deployTransformFunc ft (.obj entries)).hasKey k = true := by
  cases ft with
  | none => exact ⟨rfl, hk⟩
  | some st =>
    cases st with
    | prim n => exact ⟨rfl, hk⟩
    | list t => exact ⟨rfl, hk⟩
    | obj tannots tfields =>
      by_cases h1 : JsValue.hasKeyE entries TYPE = true
      · simp [Analytics.deployTransformFunc, h1, JsValue.get, JsValue.hasKey, hk]
      · have h1' : JsValue.hasKeyE entries TYPE = false := by simpa using h1
        by_cases h2 : (JsValue.hasKeyE tannots XML_TYPE &&
            entries.length == 1) = true
        · have hTk : T ≠ k := by
            intro hc
            rw [← hc] at hk
            exact absurd hk (by simp [hT])
          simp only [Analytics.deployTransformFunc, h1', Bool.false_eq_true,
            if_false, h2, if_true, JsValue.get, JsValue.hasKey]
          constructor
          · exact JsValue.getE_setE_ne entries hTk _
          · rw [JsValue.hasKeyE_setE_ne entries hTk]
            exact hk
        · have h2' : (JsValue.hasKeyE tannots XML_TYPE &&
              entries.length == 1) = false := by simpa using h2
          simp only [Analytics.deployTransformFunc, h1', Bool.false_eq_true,
            if_false, h2', JsValue.get, JsValue.hasKey]
          refine foldl_preserve _ ?_ tfields entries k hk
          intro acc x k' hk'
          by_cases hc : (!JsValue.hasKeyE acc x.1 &&
              !annotIsTrue x.2.1 DO_NOT_ADD) = true
          · have hfresh : JsValue.hasKeyE acc x.1 = false := by
              rcases Bool.and_eq_true .. |>.mp hc with ⟨hl, _⟩
              simpa using hl
            have hne : x.1 ≠ k' := by
              intro he
              rw [he] at hfresh
              rw [hfresh] at hk'
              exact Bool.noConfusion hk'
            simp only [hc, if_true]
            constructor
            · exact JsValue.getE_setE_ne acc hne _
            · rw [JsValue.hasKeyE_setE_ne acc hne]
              exact hk'
          · have hc' : (!JsValue.hasKeyE acc x.1 &&
                !annotIsTrue x.2.1 DO_NOT_ADD) = false := by simpa using hc
            simp [hc', hk']

/-- Witness for C4: completing a one-field object at a schema node with
one absent field leaves the existing field untouched. -/
theorem c4_field_completion_additive_witness :
    (Analytics.deployTransformFunc
      (some (.obj [] [("y", [], .prim "string")]))
      (.obj [("a", .num 5)])).get "a" = .num 5 ∧
    (Analytics.deployTransformFunc
      (some (.obj [] [("y", [], .prim "string")]))
      (.obj [("a", .num 5)])).hasKey "a" = true :=
  c4_field_completion_additive (some (.obj [] [("y", [], .prim "string")]))
    [("a", .num 5)] rfl "a" rfl

/-- Claim C5: the deploy placeholder synthesis
(`createEmptyObjectOfType`) returns the field's configured
`DEFAULT_VALUE` when one is annotated; an empty-array sentinel for a
list-typed field; a null sentinel for a primitive field and for an
object annotated `XML_TYPE` without `IGNORE_T_VALUE`; and for a plain
object a recursively built placeholder over the non-`DO_NOT_ADD`
fields, collapsing to the single null sentinel exactly when every
synthesized child is itself a null or empty-array sentinel. -/
theorem c5_empty_placeholder (fieldType : SchemaType) (key : String)
    (fannots : Annots) (fty : SchemaType)
    (hf : (fieldsOf fieldType).find? (fun f => f.1 == key) =
      some (key, fannots, fty)) :
    (JsValue.hasKeyE fannots DEFAULT_VALUE = true →
      Analytics.createEmptyObjectOfType fieldType key =
        JsValue.getE fannots DEFAULT_VALUE) ∧
    (JsValue.hasKeyE fannots DEFAULT_VALUE = false →
      (∀ t, fty = .list t →
        Analytics.createEmptyObjectOfType fieldType key = arrayObject) ∧
      (∀ n, fty = .prim n →
        Analytics.createEmptyObjectOfType fieldType key = nullObject) ∧
      (∀ ta tf, fty = .obj ta tf →
        JsValue.hasKeyE ta XML_TYPE = true →
        JsValue.hasKeyE ta IGNORE_T_VALUE = false →
        Analytics.createEmptyObjectOfType fieldType key = nullObject) ∧
      (∀ ta tf, fty = .obj ta tf →
        (JsValue.hasKeyE ta XML_TYPE && !JsValue.hasKeyE ta IGNORE_T_VALUE) =
          false →
        ((Analytics.createEmptyChildren tf).all (fun c =>
            JsValue.beq c.2 nullObject || JsValue.beq c.2 arrayObject) = true →
          Analytics.createEmptyObjectOfType fieldType key = nullObject) ∧
        ((Analytics.createEmptyChildren tf).all (fun c =>
            JsValue.beq c.2 nullObject || JsValue.beq c.2 arrayObject) = false →
          Analytics.createEmptyObjectOfType fieldType key =
            .obj (Analytics.createEmptyChildren tf)))) ∧
    (∀ tf : List (String × Annots × SchemaType),
      Analytics.createEmptyChildren tf =
        (tf.filter (fun f => !JsValue.hasKeyE f.2.1 DO_NOT_ADD)).map
          (fun f => (f.1, Analytics.createEmptyForField f.2.1 f.2.2))) := by
  have hbase : Analytics.createEmptyObjectOfType fieldType key =
      Analytics.createEmptyForField fannots fty := by
    simp [Analytics.createEmptyObjectOfType, hf]
  refine ⟨?_, ?_, ?_⟩
  · intro h
    rw [hbase]
    cases fty <;> simp [Analytics.createEmptyForField, h]
  · intro h
    refine ⟨?_, ?_, ?_, ?_⟩
    · intro t ht
      subst ht
      rw [hbase]
      simp [Analytics.createEmptyForField, h]
    · intro n hn
      subst hn
      rw [hbase]
      simp [Analytics.createEmptyForField, h]
    · intro ta tf ht hx hig
      subst ht
      rw [hbase]
      simp [Analytics.createEmptyForField, h, hx, hig]
    · intro ta tf ht hcond
      subst ht
      refine ⟨?_, ?_⟩
      · intro hall
        rw [hbase]
        simp [Analytics.createEmptyForField, h, hcond, hall]
      · intro hall
        rw [hbase]
        simp [Analytics.createEmptyForField, h, hcond, hall]
  · intro tf
    induction tf with
    | nil => simp [Analytics.createEmptyChildren]
    | cons f rest ih =>
      obtain ⟨n, a, ty⟩ := f
      by_cases hdna : JsValue.hasKeyE a DO_NOT_ADD = true
      · simp [Analytics.createEmptyChildren, hdna, List.filter_cons, ih]
      · have hdna' : JsValue.hasKeyE a DO_NOT_ADD = false := by simpa using hdna
        simp [Analytics.createEmptyChildren, hdna', List.filter_cons, ih]

/-- Witness for C5: a field annotated with `DEFAULT_VALUE: 'AND'`
(the dataset operator code) synthesizes its default. -/
theorem c5_empty_placeholder_witness :
    Analytics.createEmptyObjectOfType
      (.obj [] [("code", [(DEFAULT_VALUE, .str "AND")], .prim "string")])
      "code" = .str "AND" :=
  (c5_empty_placeholder
    (.obj [] [("code", [(DEFAULT_VALUE, .str "AND")], .prim "string")])
    "code" [(DEFAULT_VALUE, .str "AND")] (.prim "string") rfl).1 rfl

/-- The first-pass lambda of `deployWalkFunc` acts pointwise: each key's
new value depends only on that key's old value. -/
theorem walk_step1_eq :
    (fun (acc : List (String × JsValue)) (k : String) =>
      let acc1 := JsValue.setE acc k (Analytics.checkT (.s k) (.obj acc))
      JsValue.setE acc1 k (Analytics.checkReference k (.obj acc1))) =
    (fun acc k => JsValue.setE acc k (walkPass1Val k (JsValue.getE acc k))) := by
  funext acc k
  show JsValue.setE (JsValue.setE acc k (Analytics.checkT (.s k) (.obj acc))) k
      (Analytics.checkReference k
        (.obj (JsValue.setE acc k (Analytics.checkT (.s k) (.obj acc))))) = _
  have h1 : Analytics.checkT (.s k) (.obj acc) =
      checkTValA k (JsValue.getE acc k) := rfl
  rw [h1]
  have h2 : Analytics.checkReference k
      (.obj (JsValue.setE acc k (checkTValA k (JsValue.getE acc k)))) =
      checkRefValA k (JsValue.getE
        (JsValue.setE acc k (checkTValA k (JsValue.getE acc k))) k) := rfl
  rw [h2, JsValue.getE_setE_self, JsValue.setE_setE_same]
  rfl

/-- The second-pass lambda of `deployWalkFunc` acts pointwise. -/
theorem walk_step2_eq :
    (fun (acc : List (String × JsValue)) (k : String) =>
      JsValue.setE acc k (Analytics.checkTypeField (.s k) (.obj acc))) =
    (fun acc k => JsValue.setE acc k
      (checkTypeFieldValA (JsValue.getE acc k))) := by
  funext acc k
  rfl

/-- `deployWalkFunc` on a plain object, written with the pointwise
per-key actions. -/
theorem deployWalkFunc_obj_entries (entries : List (String × JsValue)) :
    Analytics.deployWalkFunc (.obj entries) =
      (if JsValue.hasKeyE ((entries.map Prod.fst).foldl
          (fun acc k => JsValue.setE acc k
            (walkPass1Val k (JsValue.getE acc k))) entries) TYPE then
        .obj ((entries.map Prod.fst).foldl
          (fun acc k => JsValue.setE acc k
            (walkPass1Val k (JsValue.getE acc k))) entries)
      else .obj ((entries.map Prod.fst).foldl
        (fun acc k => JsValue.setE acc k
          (checkTypeFieldValA (JsValue.getE acc k)))
        ((entries.map Prod.fst).foldl
          (fun acc k => JsValue.setE acc k
            (walkPass1Val k (JsValue.getE acc k))) entries))) := by
  simp only [Analytics.deployWalkFunc]
  rw [walk_step1_eq, walk_step2_eq]

/-- Claim C8: during deploy wire re-encoding, `checkTypeField` wraps
every sequence as an `array` sentinel, every boolean as a `boolean`
sentinel with stringified text, and every string that parses as a
number (`isNumberStr`) as a `string` sentinel, returning all other
scalars unchanged; `deployWalkFunc` applies this wrapping to the
entries of an object only when the object does not already carry the
`@_type` discriminator. -/
theorem c8_wire_reencoding :
    (∀ (key : JsKey) (value : JsValue) (l : List JsValue),
      idxK value key = .arr l →
      Analytics.checkTypeField key value =
        .obj [(TYPE, .str "array"), (ITEM, .arr l)]) ∧
    (∀ (key : JsKey) (value : JsValue) (b : Bool),
      idxK value key = .bool b →
      Analytics.checkTypeField key value =
        .obj [(TYPE, .str "boolean"), (TEXT, .str (JsValue.jsString (.bool b)))]) ∧
    (∀ (key : JsKey) (value : JsValue) (s : String),
      idxK value key = .str s → isNumberStr s = true →
      Analytics.checkTypeField key value =
        .obj [(TYPE, .str "string"), (TEXT, .str s)]) ∧
    (∀ (key : JsKey) (value : JsValue) (s : String),
      idxK value key = .str s → isNumberStr s = false →
      Analytics.checkTypeField key value = .str s) ∧
    (∀ (key : JsKey) (value : JsValue) (n : Int),
      idxK value key = .num n →
      Analytics.checkTypeField key value = .num n) ∧
    (∀ (entries : List (String × JsValue)) (k : String) (b : Bool),
      (entries.map Prod.fst).Nodup →
      JsValue.hasKeyE entries TYPE = false →
      (k, .bool b) ∈ entries →
      k ∉ Analytics.keysToAddT → k ≠ "translationScriptId" →
      (Analytics.deployWalkFunc (.obj entries)).get k =
        .obj [(TYPE, .str "boolean"), (TEXT, .str (JsValue.jsString (.bool b)))]) ∧
    (∀ (entries : List (String × JsValue)) (k : String) (b : Bool),
      (entries.map Prod.fst).Nodup →
      JsValue.hasKeyE entries TYPE = true →
      (k, .bool b) ∈ entries →
      k ∉ Analytics.keysToAddT → k ≠ "translationScriptId" →
      (Analytics.deployWalkFunc (.obj entries)).get k = .bool b) := by
  have hwp : ∀ (k : String) (b : Bool), k ∉ Analytics.keysToAddT →
      k ≠ "translationScriptId" → walkPass1Val k (.bool b) = .bool b := by
    intro k b h1 h2
    have hbeq : (k == "translationScriptId") = false := by simp [h2]
    simp [walkPass1Val, checkTValA, h1, Analytics.checkTShape, checkRefValA,
      hbeq]
  have he1 : ∀ (entries : List (String × JsValue)) (k : String) (b : Bool),
      (entries.map Prod.fst).Nodup → (k, .bool b) ∈ entries →
      k ∉ Analytics.keysToAddT → k ≠ "translationScriptId" →
      JsValue.getE ((entries.map Prod.fst).foldl
        (fun acc k' => JsValue.setE acc k'
          (walkPass1Val k' (JsValue.getE acc k'))) entries) k = .bool b := by
    intro entries k b hnd hmem hk1 hk2
    have hmemk : k ∈ entries.map Prod.fst :=
      List.mem_map.mpr ⟨(k, .bool b), hmem, rfl⟩
    rw [JsValue.getE_foldl_pointwise walkPass1Val (entries.map Prod.fst) hnd
      entries k]
    simp [hmemk, JsValue.getE_of_mem_nodup hnd hmem, hwp k b hk1 hk2]
  have he1TYPE : ∀ (entries : List (String × JsValue)),
      JsValue.hasKeyE ((entries.map Prod.fst).foldl
        (fun acc k' => JsValue.setE acc k'
          (walkPass1Val k' (JsValue.getE acc k'))) entries) TYPE =
      JsValue.hasKeyE entries TYPE := by
    intro entries
    rw [JsValue.hasKeyE_foldl_pointwise walkPass1Val]
    by_cases hmem : TYPE ∈ entries.map Prod.fst
    · simp [hmem, (JsValue.hasKeyE_iff_mem entries TYPE).mpr hmem]
    · simp [hmem]
  refine ⟨?_, ?_, ?_, ?_, ?_, ?_, ?_⟩
  · intro key value l h
    simp [Analytics.checkTypeField, h]
  · intro key value b h
    simp [Analytics.checkTypeField, h]
  · intro key value s h hs
    simp [Analytics.checkTypeField, h, hs]
  · intro key value s h hs
    simp [Analytics.checkTypeField, h, hs]
  · intro key value n h
    simp [Analytics.checkTypeField, h]
  · intro entries k b hnd hTYPE hmem hk1 hk2
    have hmemk : k ∈ entries.map Prod.fst :=
      List.mem_map.mpr ⟨(k, .bool b), hmem, rfl⟩
    rw [deployWalkFunc_obj_entries]
    rw [if_neg (by rw [he1TYPE entries, hTYPE]; exact Bool.noConfusion)]
    simp only [JsValue.get]
    rw [JsValue.getE_foldl_pointwise (fun _ v => checkTypeFieldValA v)
      (entries.map Prod.fst) hnd _ k]
    simp [hmemk, he1 entries k b hnd hmem hk1 hk2, checkTypeFieldValA]
  · intro entries k b hnd hTYPE hmem hk1 hk2
    rw [deployWalkFunc_obj_entries]
    rw [if_pos (by rw [he1TYPE entries, hTYPE])]
    simp only [JsValue.get]
    exact he1 entries k b hnd hmem hk1 hk2

/-- Witness for C8: the numeric string `'12'` is wrapped as a string
sentinel. -/
theorem c8_wire_reencoding_witness :
    Analytics.checkTypeField (.s "k") (.obj [("k", .str "12")]) =
      .obj [(TYPE, .str "string"), (TEXT, .str "12")] :=
  c8_wire_reencoding.2.2.1 (.s "k") (.obj [("k", .str "12")]) "12" rfl rfl

/-- `checkWorkbookValidity` succeeds exactly when none of the
unsupported attribute keys is present in the instance value. -/
theorem checkWorkbookValidity_iff (i : InstanceElem) :
    Validator.checkWorkbookValidity i = true ↔
      (i.value.hasKey "charts" = false ∧ i.value.hasKey "pivots" = false ∧
       i.value.hasKey "datasetLinks" = false) := by
  by_cases h1 : i.value.hasKey "charts" = true <;>
  by_cases h2 : i.value.hasKey "pivots" = true <;>
  by_cases h3 : i.value.hasKey "datasetLinks" = true <;>
    simp_all [Validator.checkWorkbookValidity, Validator.unsupportedAttributes,
      List.filter_cons]

/-- Claim C10: `checkWorkbookValidity` is true iff none of `charts`,
`pivots`, `datasetLinks` is present; the workbook change validator
emits exactly one Warning-severity change error (keyed by the
instance's elem id) per instance change of type name `workbook` whose
value contains at least one of those keys, and nothing for any other
change; every emitted error has Warning severity. -/
theorem c10_workbook_validator :
    (∀ i : InstanceElem, Validator.checkWorkbookValidity i = true ↔
      (i.value.hasKey "charts" = false ∧ i.value.hasKey "pivots" = false ∧
       i.value.hasKey "datasetLinks" = false)) ∧
    (∀ cs : List Validator.Change,
      (Validator.changeValidator cs).map (fun e => (e.elemID, e.severity)) =
        cs.filterMap (fun c =>
          match c with
          | .instChange i =>
            if elemTypeName i.elemID = "workbook" ∧
               (i.value.hasKey "charts" = true ∨
                i.value.hasKey "pivots" = true ∨
                i.value.hasKey "datasetLinks" = true)
            then some (i.elemID, Validator.Severity.Warning)
            else none
          | .nonInstChange => none)) ∧
    (∀ (cs : List Validator.Change) (e : Validator.ChangeError),
      e ∈ Validator.changeValidator cs → e.severity = .Warning) := by
  refine ⟨checkWorkbookValidity_iff, ?_, ?_⟩
  · intro cs
    induction cs with
    | nil => rfl
    | cons c rest ih =>
      cases c with
      | nonInstChange =>
        simpa [Validator.changeValidator, Validator.getInstData,
          List.filterMap_cons] using ih
      | instChange i =>
        by_cases hw : elemTypeName i.elemID = "workbook"
        · by_cases hv : Validator.checkWorkbookValidity i = true
          · have hconj := (checkWorkbookValidity_iff i).mp hv
            have hfalse : ¬ (i.value.hasKey "charts" = true ∨
                i.value.hasKey "pivots" = true ∨
                i.value.hasKey "datasetLinks" = true) := by
              simp [hconj.1, hconj.2.1, hconj.2.2]
            simp only [Validator.changeValidator, List.filterMap_cons,
              Validator.getInstData] at ih ⊢
            simp [hw, WORKBOOK, hv, hfalse]
            simpa [Validator.changeValidator] using ih
          · have hvf : Validator.checkWorkbookValidity i = false := by
              simpa using hv
            have hdisj : i.value.hasKey "charts" = true ∨
                i.value.hasKey "pivots" = true ∨
                i.value.hasKey "datasetLinks" = true := by
              by_contra hc
              push_neg at hc
              have hval := (checkWorkbookValidity_iff i).mpr
                ⟨by simpa using hc.1, by simpa using hc.2.1,
                 by simpa using hc.2.2⟩
              rw [hval] at hvf
              exact Bool.noConfusion hvf
            simp [Validator.changeValidator, List.filterMap_cons,
              Validator.getInstData, hw, WORKBOOK, hvf, hdisj]
            simpa [Validator.changeValidator] using ih
        · simp [Validator.changeValidator, List.filterMap_cons,
            Validator.getInstData, hw, WORKBOOK]
          simpa [Validator.changeValidator] using ih
  · intro cs e he
    simp only [Validator.changeValidator, List.mem_map] at he
    obtain ⟨i, _, rfl⟩ := he
    rfl

/-- Witness for C10: one qualifying workbook change (value containing
`charts`) yields exactly one Warning keyed by its elem id, while a
non-instance change and a dataset change yield nothing. -/
theorem c10_workbook_validator_witness :
    (Validator.changeValidator
      [Validator.Change.instChange
        { elemID := ["netsuite", "workbook", "instance", "a"]
          value := .obj [("charts", .arr [])] },
       Validator.Change.nonInstChange,
       Validator.Change.instChange
        { elemID := ["netsuite", "dataset", "instance", "b"]
          value := .obj [("charts", .arr [])] }]).map
      (fun e => (e.elemID, e.severity)) =
      [(["netsuite", "workbook", "instance", "a"],
        Validator.Severity.Warning)] :=
  (c10_workbook_validator.2.1
    [Validator.Change.instChange
      { elemID := ["netsuite", "workbook", "instance", "a"]
        value := .obj [("charts", .arr [])] },
     Validator.Change.nonInstChange,
     Validator.Change.instChange
      { elemID := ["netsuite", "dataset", "instance", "b"]
        value := .obj [("charts", .arr [])] }]).trans rfl
